import Mathlib

/-!
Verification of the GitHub MCP Server core logic (src/main.py).

The Python functions `determine_content_type`, `get_org_repos`,
`check_doc_folder`, `get_repo_docs`, `get_file_content`,
`search_documentation` and the MCP resource `documentation_resource` are
shallowly embedded below.  Python strings are modelled as lists of Unicode
code points; HTTP responses are modelled as explicit environment data
(status code, body, parsed JSON payload); a raised Python exception is an
`Except.error` carrying the exception class name and message.
-/

namespace GithubMCP

/-- Python strings are modelled as lists of Unicode code points. -/
abbrev PyStr := List Nat

/-- Code points of a Lean string literal, used to transcribe Python string
literals from the source. -/
def pyStr (s : String) : PyStr := s.data.map Char.toNat

/-- ASCII lower-casing of a single code point, as Python `str.lower` acts on
ASCII letters (code points 65-90 map to 97-122). -/
def lowerChar (c : Nat) : Nat := if 65 ≤ c ∧ c ≤ 90 then c + 32 else c

/-- `filename.lower()` from the source (ASCII fragment of Python `str.lower`). -/
def pyLower (s : PyStr) : PyStr := s.map lowerChar

/-- Python `s.endswith(t)`. -/
def endswith (s t : PyStr) : Bool := s.drop (s.length - t.length) == t

/-- Python `s.startswith(t)`. -/
def startswith (s t : PyStr) : Bool := s.take t.length == t

/-- Python `x or ""` applied to an optional string field (`None` and the
empty string both collapse to the empty string). -/
def orEmpty (o : Option PyStr) : PyStr :=
  match o with
  | some s => s
  | none => []

/-- Decimal rendering of a natural number, modelling Python `str(n)`. -/
def natToStr (n : Nat) : PyStr := (Nat.toDigits 10 n).map Char.toNat

/-- The closed set of content categories returned by
`determine_content_type` (main.py lines 88-112). -/
inductive ContentType
  | markdown
  | mermaid
  | svg
  | openapi
  | postman
  | unknown
deriving DecidableEq, Repr

/-- The Python string value the source returns for each category. -/
def ctName : ContentType → PyStr
  | .markdown => pyStr ("markdown")
  | .mermaid => pyStr ("mermaid")
  | .svg => pyStr ("svg")
  | .openapi => pyStr ("openapi")
  | .postman => pyStr ("postman")
  | .unknown => pyStr ("unknown")

/-- The branch chain of `determine_content_type` (main.py lines 100-112),
applied to the already lower-cased name `lower_name`. -/
def ctRules (lower_name : PyStr) : ContentType :=
  if endswith lower_name (pyStr (".mmd")) || endswith lower_name (pyStr (".mermaid")) then
    .mermaid
  else if endswith lower_name (pyStr (".md")) then
    .markdown
  else if endswith lower_name (pyStr (".svg")) then
    .svg
  else if endswith lower_name (pyStr (".yml")) || endswith lower_name (pyStr (".yaml")) then
    .openapi
  else if endswith lower_name (pyStr (".json")) then
    (if startswith lower_name (pyStr ("postman")) then .postman else .openapi)
  else
    .unknown

/-- `determine_content_type(filename)` (main.py lines 88-112): the name is
lower-cased once (`lower_name = filename.lower()`) and then matched by
`ctRules`. -/
def determine_content_type (filename : PyStr) : ContentType :=
  ctRules (pyLower filename)

/-- The classifier as the specification states it: an ordered first-match
rule list, case-insensitive on the extension.  Written from the spec's
words (§4.4) to be compared with `determine_content_type`. -/
def classifySpec (filename : PyStr) : ContentType :=
  let l := pyLower filename
  if endswith l (pyStr (".mmd")) || endswith l (pyStr (".mermaid")) then .mermaid
  else if endswith l (pyStr (".md")) then .markdown
  else if endswith l (pyStr (".svg")) then .svg
  else if endswith l (pyStr (".yml")) || endswith l (pyStr (".yaml")) then .openapi
  else if endswith l (pyStr (".json")) && startswith l (pyStr ("postman")) then .postman
  else if endswith l (pyStr (".json")) then .openapi
  else .unknown

/-- A raised Python exception: the exception class name and the message.
Every `raise` in main.py uses the built-in `Exception` class; the dictionary
subscript in `documentation_resource` can raise `KeyError`. -/
structure PyExc where
  kind : String
  msg : PyStr
deriving DecidableEq, Repr

/-- `raise Exception(msg)`. -/
def mkExc (msg : PyStr) : PyExc := ⟨"Exception", msg⟩

/-- The message `f"GitHub API error {response.status}: {error_text}"` used by
every generic upstream-error raise in main.py. -/
def apiErrorMsg (status : Nat) (body : PyStr) : PyStr :=
  pyStr ("GitHub API error ") ++ natToStr status ++ pyStr (": ") ++ body

/-- `RESULTS_PER_PAGE` (main.py line 34). -/
def RESULTS_PER_PAGE : Nat := 100

/-- The `repository` object of a code-search item: the fields main.py reads
via `.get`, hence all optional. -/
structure SearchRepoInfo where
  id : Option Nat
  name : Option PyStr
  description : Option PyStr
  html_url : Option PyStr
deriving DecidableEq, Repr

/-- One item of a `/search/code` response: `name`, `path` and `html_url` are
read by subscript (mandatory), the repository object via `.get`. -/
structure SearchItem where
  name : PyStr
  path : PyStr
  html_url : PyStr
  repository : SearchRepoInfo
deriving DecidableEq, Repr

/-- One element of a `/orgs/{org}/repos` page: `id`, `name` and `html_url`
are read by subscript, `description` via `.get`. -/
structure RepoJson where
  id : Nat
  name : PyStr
  description : Option PyStr
  html_url : PyStr
deriving DecidableEq, Repr

/-- The repository summary dictionary built by `get_org_repos`
(both strategies produce this shape). -/
structure RepoSummary where
  id : PyStr
  name : PyStr
  description : PyStr
  url : PyStr
  hasDocFolder : Bool
deriving DecidableEq, Repr

/-- The environment of one `get_org_repos` call: the search response
(`none` models a transport exception, otherwise status and parsed items),
the successive `/orgs/{org}/repos` page responses (status, body text,
parsed array; pages beyond the list are empty, which keeps the paging loop
finite), and the probe response per repository name (`none` models a
transport exception inside `check_doc_folder`). -/
structure OrgEnv where
  searchResp : Option (Nat × List SearchItem)
  pageResps : List (Nat × PyStr × List RepoJson)
  probeResp : PyStr → Option Nat

/-- `check_doc_folder` (main.py lines 61-85): `True` exactly when the probe
request returns status 200; any other status or a transport exception
yields `False` (the `except` branch). -/
def check_doc_folder (probe : PyStr → Option Nat) (repo : PyStr) : Bool :=
  match probe repo with
  | some status => status == 200
  | none => false

/-- The summary built for one search item inserted into `repos_with_docs`
(main.py lines 142-148); `n` is the already-checked truthy repository name. -/
def mkSearchSummary (ri : SearchRepoInfo) (n : PyStr) : RepoSummary :=
  { id := match ri.id with
      | some k => natToStr k
      | none => []
    name := n
    description := orEmpty ri.description
    url := orEmpty ri.html_url
    hasDocFolder := true }

/-- The body of the `for item in data.get("items", [])` loop (main.py lines
137-148): insert keyed by repository name, first occurrence wins, falsy
names skipped.  The ordered list models the insertion-ordered dictionary
`repos_with_docs`. -/
def searchInsert (acc : List RepoSummary) (item : SearchItem) : List RepoSummary :=
  match item.repository.name with
  | none => acc
  | some n =>
    if n ≠ [] ∧ ∀ s ∈ acc, s.name ≠ n then acc ++ [mkSearchSummary item.repository n]
    else acc

/-- `list(repos_with_docs.values())` after the search-item loop
(main.py lines 136-151). -/
def searchSummaries (items : List SearchItem) : List RepoSummary :=
  items.foldl searchInsert []

/-- The fallback paging loop (main.py lines 163-183): request pages until a
non-200 status (fatal), an empty page, or a page shorter than
`RESULTS_PER_PAGE`, accumulating `all_repos`. -/
def fetchPages : List (Nat × PyStr × List RepoJson) → Except PyExc (List RepoJson)
  | [] => .ok []
  | (status, body, repos) :: rest =>
    if status ≠ 200 then .error (mkExc (apiErrorMsg status body))
    else if repos = [] then .ok []
    else if repos.length < RESULTS_PER_PAGE then .ok repos
    else
      match fetchPages rest with
      | .ok tail => .ok (repos ++ tail)
      | .error e => .error e

/-- The summary built for one enumerated repository in the fallback strategy
(main.py lines 193-199). -/
def mkFallbackSummary (probe : PyStr → Option Nat) (r : RepoJson) : RepoSummary :=
  { id := natToStr r.id
    name := r.name
    description := orEmpty r.description
    url := r.html_url
    hasDocFolder := check_doc_folder probe r.name }

/-- Strategy 2 of `get_org_repos` (main.py lines 156-204): enumerate all
repositories, then probe each for a `/doc` folder, in page order. -/
def fallbackRepos (env : OrgEnv) : Except PyExc (List RepoSummary) :=
  match fetchPages env.pageResps with
  | .error e => .error e
  | .ok all_repos => .ok (all_repos.map (mkFallbackSummary env.probeResp))

/-- `get_org_repos` (main.py lines 119-204): the search result is returned
exactly when the search request returns status 200; a non-200 status falls
through the `if`, and a transport exception is caught — both continue into
the fallback strategy. -/
def get_org_repos (env : OrgEnv) : Except PyExc (List RepoSummary) :=
  match env.searchResp with
  | some (200, items) => .ok (searchSummaries items)
  | _ => fallbackRepos env

/-- A Python dictionary value occurring in the documentation dictionaries:
a string or an integer. -/
inductive PyVal
  | vstr (s : PyStr)
  | vnat (n : Nat)
deriving DecidableEq, Repr

/-- A Python dictionary with string keys, modelled as an insertion-ordered
association list, so that a missing key is observable. -/
abbrev DocDict := List (String × PyVal)

/-- `d.get(k)`: the value stored under `k`, if any. -/
def dictGet (d : DocDict) (k : String) : Option PyVal :=
  (d.find? (fun p => p.1 == k)).map (fun p => p.2)

/-- `d[k]`: mandatory subscript; a missing key raises `KeyError(k)`. -/
def dictItem (d : DocDict) (k : String) : Except PyExc PyVal :=
  match dictGet d k with
  | some v => .ok v
  | none => .error ⟨"KeyError", pyStr k⟩

/-- One entry of a `/repos/{org}/{repo}/contents/doc` listing.  The upstream
response carries a `size` field (spec §6); main.py reads `type`, `name`,
`path`, `sha`, `html_url` by subscript and `download_url` via `.get`. -/
structure ContentItem where
  typ : PyStr
  name : PyStr
  path : PyStr
  sha : PyStr
  size : Nat
  html_url : PyStr
  download_url : Option PyStr
deriving DecidableEq, Repr

/-- `supported_extensions` (main.py lines 252-260). -/
def supported_extensions : List PyStr :=
  [pyStr (".md"), pyStr (".mmd"), pyStr (".mermaid"), pyStr (".svg"),
   pyStr (".yml"), pyStr (".yaml"), pyStr (".json")]

/-- The dictionary appended to `docs` for one retained entry
(main.py lines 274-281).  These are exactly the keys the source sets. -/
def docEntry (item : ContentItem) : DocDict :=
  [("id", .vstr item.sha),
   ("name", .vstr item.name),
   ("path", .vstr item.path),
   ("type", .vstr (ctName (determine_content_type item.name))),
   ("url", .vstr item.html_url),
   ("download_url", .vstr (orEmpty item.download_url))]

/-- The filter of the `for item in contents` loop (main.py lines 265-283):
keep entries whose type marker is `"file"` and whose lower-cased name ends
with a supported extension; everything else only increments the `skipped`
log counter. -/
def docsOf (contents : List ContentItem) : List DocDict :=
  (contents.filter (fun item =>
    item.typ == pyStr ("file") &&
      supported_extensions.any (fun ext => endswith (pyLower item.name) ext))).map docEntry

/-- `get_repo_docs` (main.py lines 207-286): 404 yields the empty list, any
other non-200 status raises, a 200 response is filtered and projected. -/
def get_repo_docs (status : Nat) (body : PyStr) (contents : List ContentItem) :
    Except PyExc (List DocDict) :=
  if status = 404 then .ok []
  else if status ≠ 200 then .error (mkExc (apiErrorMsg status body))
  else .ok (docsOf contents)

/-- The JSON body of a `/repos/{org}/{repo}/contents/{path}` response:
the fields main.py reads (`name`, `path` by subscript; `content`,
`encoding` via membership test / `.get`). -/
structure FileData where
  name : PyStr
  path : PyStr
  content : Option PyStr
  encoding : Option PyStr
deriving DecidableEq, Repr

/-- The result dictionary of `get_file_content` (main.py lines 340-345). -/
structure FileResult where
  name : PyStr
  path : PyStr
  content : PyStr
  encoding : PyStr
deriving DecidableEq, Repr

/-- `data["content"].replace('\n', '')` (main.py line 333): remove every
newline (code point 10). -/
def stripNewlines (s : PyStr) : PyStr := s.filter (fun c => c != 10)

/-- `get_file_content` (main.py lines 289-345).  `decode` is a parameter
modelling `base64.b64decode(x).decode('utf-8')`; `none` models the raised
exception on malformed base64 or invalid UTF-8, which the source catches by
falling back to the original `data.get("content", "")`. -/
def get_file_content (decode : PyStr → Option PyStr) (status : Nat) (body : PyStr)
    (path : PyStr) (data : FileData) : Except PyExc FileResult :=
  if status = 404 then .error (mkExc (pyStr ("File not found: ") ++ path))
  else if status ≠ 200 then .error (mkExc (apiErrorMsg status body))
  else
    let content : PyStr :=
      match data.content with
      | some c =>
        if c = [] then []
        else
          match decode (stripNewlines c) with
          | some decoded => decoded
          | none => c
      | none => []
    .ok ⟨data.name, data.path, content, data.encoding.getD (pyStr ("base64"))⟩

/-- One result dictionary of `search_documentation` (main.py lines 372-377). -/
structure SearchResult where
  name : PyStr
  path : PyStr
  repository : PyStr
  url : PyStr
deriving DecidableEq, Repr

/-- The fixed message of the 403 raise in `search_documentation`
(main.py line 361). -/
def rateLimitExc : PyExc :=
  mkExc (pyStr ("Search API rate limit exceeded. Try again later."))

/-- `search_documentation` (main.py lines 348-380): 403 raises the fixed
rate-limit `Exception`, any other non-200 raises the generic upstream
`Exception`, and a 200 response is projected 1:1 in order. -/
def search_documentation (status : Nat) (body : PyStr) (items : List SearchItem) :
    Except PyExc (List SearchResult) :=
  if status = 403 then .error rateLimitExc
  else if status ≠ 200 then .error (mkExc (apiErrorMsg status body))
  else .ok (items.map (fun item =>
    ⟨item.name, item.path, orEmpty item.repository.name, item.html_url⟩))

/-- Interpolation of a dictionary value into an f-string, as Python `str`. -/
def pyValStr : PyVal → PyStr
  | .vstr s => s
  | .vnat n => natToStr n

/-- Comma insertion into a reversed digit list (helper for `fmtComma`). -/
def insertCommasRev : List Nat → List Nat
  | a :: b :: c :: d :: rest => a :: b :: c :: 44 :: insertCommasRev (d :: rest)
  | l => l

/-- Python format `f"{n:,}"`: decimal digits with a comma every three
digits from the right. -/
def fmtComma (n : Nat) : PyStr := (insertCommasRev (natToStr n).reverse).reverse

/-- Python format `f"{v:,}"` on a dictionary value: the comma format is only
valid for numbers; on a string it raises `ValueError`. -/
def fmtCommaVal : PyVal → Except PyExc PyStr
  | .vnat n => .ok (fmtComma n)
  | .vstr _ => .error ⟨"ValueError", pyStr ("Cannot specify ',' with 's'.")⟩

/-- The four lines appended for one documentation file by
`documentation_resource` (main.py lines 506-511), reading `doc['name']`,
`doc['type']`, `doc['size']` and `doc['path']` by mandatory subscript. -/
def formatDocLines (doc : DocDict) : Except PyExc (List PyStr) := do
  let n ← dictItem doc "name"
  let t ← dictItem doc "type"
  let sz ← dictItem doc "size"
  let szs ← fmtCommaVal sz
  let p ← dictItem doc "path"
  pure [pyStr ("📄 ") ++ pyValStr n,
        pyStr ("   Type: ") ++ pyValStr t,
        pyStr ("   Size: ") ++ szs ++ pyStr (" bytes"),
        pyStr ("   Path: ") ++ pyValStr p,
        []]

/-- `"=" * 50`. -/
def eqRow : PyStr := List.replicate 50 61

/-- `documentation_resource` (main.py lines 476-515): list the documentation
files of a repository and format them as a readable text block; the inputs
are the upstream listing response consumed by the inner `get_repo_docs`
call. -/
def documentation_resource (org repo : PyStr) (status : Nat) (body : PyStr)
    (contents : List ContentItem) : Except PyExc PyStr := do
  let docs ← get_repo_docs status body contents
  if docs = [] then
    pure (pyStr ("No documentation found in ") ++ org ++ pyStr ("/") ++ repo ++
      pyStr ("/doc folder"))
  else
    let header := [pyStr ("Documentation in ") ++ org ++ pyStr ("/") ++ repo, eqRow, []]
    let body0 ← docs.foldlM (fun acc doc => do
      let ls ← formatDocLines doc
      pure (acc ++ ls)) header
    let lines := body0 ++ [pyStr ("Total: ") ++ natToStr docs.length ++ pyStr (" files")]
    pure (List.intercalate [10] lines)

/-- A sample search-result repository object (name `alpha`). -/
def sampleRepoInfoA : SearchRepoInfo :=
  ⟨some 11, some (pyStr ("alpha")), some (pyStr ("da")), some (pyStr ("ua"))⟩

/-- A sample search item owned by repository `alpha`. -/
def sampleItemA : SearchItem :=
  ⟨pyStr ("f1.md"), pyStr ("doc/f1.md"), pyStr ("h1"), sampleRepoInfoA⟩

/-- A second search item owned by the same repository `alpha`. -/
def sampleItemA2 : SearchItem :=
  ⟨pyStr ("f2.md"), pyStr ("doc/f2.md"), pyStr ("h2"), sampleRepoInfoA⟩

/-- A sample enumerated repository `beta`. -/
def sampleRepoB : RepoJson := ⟨21, pyStr ("beta"), none, pyStr ("ub")⟩

/-- A sample enumerated repository `gamma`. -/
def sampleRepoC : RepoJson := ⟨22, pyStr ("gamma"), some (pyStr ("dc")), pyStr ("uc")⟩

/-- A sample enumerated repository `delta`. -/
def sampleRepoD : RepoJson := ⟨23, pyStr ("delta"), none, pyStr ("ud")⟩

/-- A sample probe environment: `beta` and `delta` have a `/doc` folder,
`gamma` answers 404, everything else raises a transport exception. -/
def sampleProbe : PyStr → Option Nat := fun n =>
  if n == pyStr ("beta") then some 200
  else if n == pyStr ("gamma") then some 404
  else if n == pyStr ("delta") then some 200
  else none

/-- Environment whose search request answers 204 (a 2xx success that is not
200) while the organization owns repository `beta`. -/
def envC1 : OrgEnv := ⟨some (204, [sampleItemA]), [(200, [], [sampleRepoB])], fun _ => none⟩

/-- Environment whose search request succeeds with zero items while the
organization owns repository `beta`. -/
def envC2 : OrgEnv := ⟨some (200, []), [(200, [], [sampleRepoB])], fun _ => none⟩

/-- Environment whose search request raises, with a one-page enumeration of
three repositories probed found / not-found / found. -/
def envC3 : OrgEnv := ⟨none, [(200, [], [sampleRepoB, sampleRepoC, sampleRepoD])], sampleProbe⟩

/-- Environment whose search request succeeds with two items from the same
repository `alpha`. -/
def envC4 : OrgEnv := ⟨some (200, [sampleItemA, sampleItemA2]), [], fun _ => none⟩

/-- A sample `/doc` directory entry: a Markdown file whose upstream record
carries a size. -/
def sampleMdItem : ContentItem :=
  ⟨pyStr ("file"), pyStr ("README.md"), pyStr ("doc/README.md"), pyStr ("abc123"),
   2048, pyStr ("hurl"), some (pyStr ("durl"))⟩

/-- Claim C1 as stated: whenever the search request completes with any 2xx
status, discovery returns the search-derived summaries (and hence the
fallback never runs). -/
def c1Claim : Prop :=
  ∀ env : OrgEnv, ∀ s items, env.searchResp = some (s, items) →
    200 ≤ s → s ≤ 299 → get_org_repos env = .ok (searchSummaries items)

/-- Claim C2 as stated: discovery produces a summary for every repository
belonging to the organization (the enumeration result), regardless of which
strategy executed. -/
def c2Claim : Prop :=
  ∀ env : OrgEnv, ∀ repos res, fetchPages env.pageResps = .ok repos →
    get_org_repos env = .ok res → ∀ r ∈ repos, ∃ s ∈ res, s.name = r.name

/-- A decoder that always fails, modelling malformed base64 / invalid UTF-8. -/
def decodeFail : PyStr → Option PyStr := fun _ => none

/-- A decoder for the spec's base64 example: `"aGVsbG8="` decodes to
`"hello"`. -/
def decodeHello : PyStr → Option PyStr := fun _ => some (pyStr ("hello"))

/-- A sample file-content response whose `content` field is
`"aGVsbG8=\n"` (base64 with a trailing transport newline). -/
def sampleFileData : FileData :=
  ⟨pyStr ("README.md"), pyStr ("doc/README.md"),
   some (pyStr ("aGVsbG8=") ++ [10]), some (pyStr ("base64"))⟩

/-! ## Theorems -/

theorem lowerChar_idem (c : Nat) : lowerChar (lowerChar c) = lowerChar c := by
  unfold lowerChar
  by_cases h : 65 ≤ c ∧ c ≤ 90
  · rw [if_pos h, if_neg (show ¬(65 ≤ c + 32 ∧ c + 32 ≤ 90) by omega)]
  · rw [if_neg h, if_neg h]

theorem pyLower_idem (s : PyStr) : pyLower (pyLower s) = pyLower s := by
  unfold pyLower
  rw [List.map_map]
  exact List.map_congr_left (fun c _ => lowerChar_idem c)

theorem ctRules_eq_specChain (l : PyStr) :
    ctRules l =
      (if endswith l (pyStr (".mmd")) || endswith l (pyStr (".mermaid")) then ContentType.mermaid
       else if endswith l (pyStr (".md")) then .markdown
       else if endswith l (pyStr (".svg")) then .svg
       else if endswith l (pyStr (".yml")) || endswith l (pyStr (".yaml")) then .openapi
       else if endswith l (pyStr (".json")) && startswith l (pyStr ("postman")) then .postman
       else if endswith l (pyStr (".json")) then .openapi
       else .unknown) := by
  unfold ctRules
  split_ifs <;> simp_all

/-- C5: `determine_content_type` is a pure total function, equal to the
spec's ordered first-match rule list, case-insensitive on the extension
(lower-casing the input does not change the result), and maps the spec's
nine example filenames to the stated categories. -/
theorem c5_classifier :
    (∀ f, determine_content_type f = classifySpec f) ∧
    (∀ f, determine_content_type (pyLower f) = determine_content_type f) ∧
    determine_content_type (pyStr ("README.md")) = .markdown ∧
    determine_content_type (pyStr ("diagram.mmd")) = .mermaid ∧
    determine_content_type (pyStr ("diagram.mermaid")) = .mermaid ∧
    determine_content_type (pyStr ("image.svg")) = .svg ∧
    determine_content_type (pyStr ("api.yml")) = .openapi ∧
    determine_content_type (pyStr ("api.yaml")) = .openapi ∧
    determine_content_type (pyStr ("postman_collection.json")) = .postman ∧
    determine_content_type (pyStr ("schema.json")) = .openapi ∧
    determine_content_type (pyStr ("notes.txt")) = .unknown := by
  refine ⟨?_, ?_, by decide, by decide, by decide, by decide, by decide, by decide,
    by decide, by decide, by decide⟩
  · intro f
    show ctRules (pyLower f) = classifySpec f
    rw [ctRules_eq_specChain]
    rfl
  · intro f
    show ctRules (pyLower (pyLower f)) = ctRules (pyLower f)
    rw [pyLower_idem]

theorem searchInsert_cases (acc : List RepoSummary) (i : SearchItem) :
    (i.repository.name = none ∧ searchInsert acc i = acc) ∨
    (∃ n, i.repository.name = some n ∧ n = [] ∧ searchInsert acc i = acc) ∨
    (∃ n, i.repository.name = some n ∧ n ≠ [] ∧ (∃ a ∈ acc, a.name = n) ∧
      searchInsert acc i = acc) ∨
    (∃ n, i.repository.name = some n ∧ n ≠ [] ∧ (∀ a ∈ acc, a.name ≠ n) ∧
      searchInsert acc i = acc ++ [mkSearchSummary i.repository n]) := by
  cases hn : i.repository.name with
  | none =>
    left
    exact ⟨rfl, by simp [searchInsert, hn]⟩
  | some n =>
    by_cases hnil : n = []
    · right; left
      refine ⟨n, rfl, hnil, ?_⟩
      simp only [searchInsert, hn]
      rw [if_neg (by simp [hnil])]
    · by_cases hfresh : ∀ a ∈ acc, a.name ≠ n
      · right; right; right
        refine ⟨n, rfl, hnil, hfresh, ?_⟩
        simp only [searchInsert, hn]
        rw [if_pos ⟨hnil, hfresh⟩]
      · right; right; left
        push_neg at hfresh
        rcases hfresh with ⟨a, ha, han⟩
        refine ⟨n, rfl, hnil, ⟨a, ha, han⟩, ?_⟩
        simp only [searchInsert, hn]
        rw [if_neg (by push_neg; intro; exact ⟨a, ha, han⟩)]

theorem searchInsert_sub (acc : List RepoSummary) (i : SearchItem) :
    ∀ x ∈ acc, x ∈ searchInsert acc i := by
  rcases searchInsert_cases acc i with ⟨_, he⟩ | ⟨n, _, _, he⟩ | ⟨n, _, _, _, he⟩ |
    ⟨n, _, _, _, he⟩ <;> rw [he] <;> intro x hx <;> simp [hx]

theorem foldl_searchInsert_sub (items : List SearchItem) :
    ∀ acc, ∀ x ∈ acc, x ∈ List.foldl searchInsert acc items := by
  induction items with
  | nil => intro acc x hx; exact hx
  | cons i rest ih =>
    intro acc x hx
    simp only [List.foldl_cons]
    exact ih (searchInsert acc i) x (searchInsert_sub acc i x hx)

theorem foldl_searchInsert_shape (items : List SearchItem) :
    ∀ acc s, s ∈ List.foldl searchInsert acc items →
      s ∈ acc ∨ (s.hasDocFolder = true ∧ s.name ≠ [] ∧
        ∃ i ∈ items, ∃ n, i.repository.name = some n ∧ s = mkSearchSummary i.repository n) := by
  induction items with
  | nil => intro acc s h; exact Or.inl h
  | cons i rest ih =>
    intro acc s h
    simp only [List.foldl_cons] at h
    rcases searchInsert_cases acc i with ⟨_, he⟩ | ⟨n, _, _, he⟩ | ⟨n, _, _, _, he⟩ |
      ⟨n, hn, hne, _, he⟩
    all_goals rw [he] at h
    case _ | _ | _ =>
      rcases ih _ s h with hL | ⟨h1, h2, j, hj, m, hm, hs⟩
      · exact Or.inl hL
      · exact Or.inr ⟨h1, h2, j, List.mem_cons_of_mem i hj, m, hm, hs⟩
    · rcases ih _ s h with hL | ⟨h1, h2, j, hj, m, hm, hs⟩
      · rcases List.mem_append.1 hL with h1 | h2
        · exact Or.inl h1
        · right
          have hs : s = mkSearchSummary i.repository n := by simpa using h2
          subst hs
          exact ⟨rfl, hne, i, List.mem_cons_self i rest, n, hn, rfl⟩
      · exact Or.inr ⟨h1, h2, j, List.mem_cons_of_mem i hj, m, hm, hs⟩

theorem foldl_searchInsert_nodup (items : List SearchItem) :
    ∀ acc, (acc.map RepoSummary.name).Nodup →
      ((List.foldl searchInsert acc items).map RepoSummary.name).Nodup := by
  induction items with
  | nil => intro acc h; exact h
  | cons i rest ih =>
    intro acc h
    simp only [List.foldl_cons]
    rcases searchInsert_cases acc i with ⟨_, he⟩ | ⟨n, _, _, he⟩ | ⟨n, _, _, _, he⟩ |
      ⟨n, hn, hne, hfresh, he⟩
    all_goals rw [he]
    case _ | _ | _ => exact ih acc h
    · apply ih
      rw [List.map_append]
      refine List.Nodup.append h (by simp) ?_
      intro a ha hb
      simp only [List.map_cons, List.map_nil, List.mem_singleton] at hb
      rcases List.mem_map.1 ha with ⟨x, hx, hxa⟩
      exact hfresh x hx (hxa.trans hb)

theorem foldl_searchInsert_covers (items : List SearchItem) :
    ∀ acc, ∀ i ∈ items, ∀ n, i.repository.name = some n → n ≠ [] →
      ∃ s ∈ List.foldl searchInsert acc items, s.name = n := by
  induction items with
  | nil => intro acc i h; cases h
  | cons j rest ih =>
    intro acc i hi n hname hne
    simp only [List.foldl_cons]
    rcases List.mem_cons.1 hi with rfl | hmem
    · -- the item under consideration is handled by this very step
      have hstep : ∃ s ∈ searchInsert acc i, s.name = n := by
        by_cases hfresh : ∀ a ∈ acc, a.name ≠ n
        · have he : searchInsert acc i = acc ++ [mkSearchSummary i.repository n] := by
            simp only [searchInsert, hname]
            rw [if_pos ⟨hne, hfresh⟩]
          rw [he]
          exact ⟨mkSearchSummary i.repository n, by simp, rfl⟩
        · push_neg at hfresh
          rcases hfresh with ⟨a, ha, han⟩
          exact ⟨a, searchInsert_sub acc i a ha, han⟩
      rcases hstep with ⟨s, hs, hsn⟩
      exact ⟨s, foldl_searchInsert_sub rest (searchInsert acc i) s hs, hsn⟩
    · exact ih (searchInsert acc j) i hmem n hname hne

theorem foldl_searchInsert_first (items : List SearchItem) :
    ∀ acc s, s ∈ List.foldl searchInsert acc items →
      s ∈ acc ∨ ((∀ a ∈ acc, a.name ≠ s.name) ∧ s.name ≠ [] ∧
        ∃ i, items.find? (fun j => j.repository.name == some s.name) = some i ∧
          s = mkSearchSummary i.repository s.name) := by
  induction items with
  | nil => intro acc s h; exact Or.inl h
  | cons i rest ih =>
    intro acc s h
    simp only [List.foldl_cons] at h
    rcases searchInsert_cases acc i with ⟨hn, he⟩ | ⟨n, hn, hnil, he⟩ |
      ⟨n, hn, hne, ⟨a, ha, han⟩, he⟩ | ⟨n, hn, hne, hfresh, he⟩
    · -- repository name absent: the item can never be found by name
      rw [he] at h
      rcases ih acc s h with hL | ⟨hfr, hsne, i', hfind, hs⟩
      · exact Or.inl hL
      · right
        refine ⟨hfr, hsne, i', ?_, hs⟩
        rw [List.find?_cons_of_neg, hfind]
        simp [hn]
    · -- repository name falsy: never inserted, and cannot equal a kept name
      rw [he] at h
      rcases ih acc s h with hL | ⟨hfr, hsne, i', hfind, hs⟩
      · exact Or.inl hL
      · right
        refine ⟨hfr, hsne, i', ?_, hs⟩
        rw [List.find?_cons_of_neg, hfind]
        simp only [hn, beq_iff_eq, Option.some.injEq]
        rw [hnil]
        exact fun hh => hsne hh.symm
    · -- duplicate of a name already in the accumulator
      rw [he] at h
      rcases ih acc s h with hL | ⟨hfr, hsne, i', hfind, hs⟩
      · exact Or.inl hL
      · right
        refine ⟨hfr, hsne, i', ?_, hs⟩
        rw [List.find?_cons_of_neg, hfind]
        simp only [hn, beq_iff_eq, Option.some.injEq]
        intro heq
        exact hfr a ha (han.trans heq)
    · -- fresh name: the item is inserted here, so it is the first occurrence
      rw [he] at h
      rcases ih (acc ++ [mkSearchSummary i.repository n]) s h with hL |
        ⟨hfr, hsne, i', hfind, hs⟩
      · rcases List.mem_append.1 hL with h1 | h2
        · exact Or.inl h1
        · right
          have hs : s = mkSearchSummary i.repository n := by simpa using h2
          subst hs
          refine ⟨hfresh, hne, i, ?_, rfl⟩
          rw [List.find?_cons_of_pos]
          simp [hn, mkSearchSummary]
      · right
        refine ⟨fun a ha => hfr a (List.mem_append_left _ ha), hsne, i', ?_, hs⟩
        rw [List.find?_cons_of_neg, hfind]
        simp only [hn, beq_iff_eq, Option.some.injEq]
        intro heq
        exact hfr (mkSearchSummary i.repository n)
          (List.mem_append_right _ (by simp)) heq

theorem get_org_repos_search (env : OrgEnv) (items : List SearchItem)
    (h : env.searchResp = some (200, items)) :
    get_org_repos env = .ok (searchSummaries items) := by
  unfold get_org_repos
  split
  · rename_i heq
    rw [h] at heq
    obtain ⟨rfl⟩ := (Option.some.inj heq)
    rfl
  · rename_i hne
    exact (hne _ h).elim

theorem get_org_repos_fb (env : OrgEnv)
    (h : ∀ items, env.searchResp ≠ some (200, items)) :
    get_org_repos env = fallbackRepos env := by
  unfold get_org_repos
  split
  · rename_i heq
    exact absurd heq (h _)
  · rfl

/-- C4: under the search strategy (a 200 search response), discovery returns
exactly one summary per distinct truthy repository name — names are
duplicate-free, every truthy name occurring in the items is represented,
each summary is built from the first item bearing its name (later
duplicates dropped silently), and every summary has `hasDocFolder = true`. -/
theorem c4_search_dedup (env : OrgEnv) (items : List SearchItem)
    (h : env.searchResp = some (200, items)) :
    get_org_repos env = .ok (searchSummaries items) ∧
    ((searchSummaries items).map RepoSummary.name).Nodup ∧
    (∀ s ∈ searchSummaries items, s.hasDocFolder = true) ∧
    (∀ i ∈ items, ∀ n, i.repository.name = some n → n ≠ [] →
      ∃ s ∈ searchSummaries items, s.name = n) ∧
    (∀ s ∈ searchSummaries items,
      ∃ i, items.find? (fun j => j.repository.name == some s.name) = some i ∧
        s = mkSearchSummary i.repository s.name) := by
  refine ⟨get_org_repos_search env items h, ?_, ?_, ?_, ?_⟩
  · exact foldl_searchInsert_nodup items [] (by simp)
  · intro s hs
    rcases foldl_searchInsert_shape items [] s hs with hL | ⟨h1, _⟩
    · cases hL
    · exact h1
  · intro i hi n hn hne
    exact foldl_searchInsert_covers items [] i hi n hn hne
  · intro s hs
    rcases foldl_searchInsert_first items [] s hs with hL | ⟨_, _, i, hfind, hmk⟩
    · cases hL
    · exact ⟨i, hfind, hmk⟩

/-- Witness for C4 at a concrete environment: two search items from the same
repository `alpha` yield exactly one summary. -/
theorem c4_witness :
    get_org_repos envC4 = .ok [mkSearchSummary sampleRepoInfoA (pyStr ("alpha"))] := by
  have h := (c4_search_dedup envC4 [sampleItemA, sampleItemA2] rfl).1
  exact h.trans (by rfl)

/-- C1 counterexample: a search response with the 2xx success status 204 and
a non-empty item list does not make discovery return the search-derived
summaries — the code compares the status with 200 exactly, so the fallback
runs. -/
theorem c1_counterexample : ¬ c1Claim := by
  intro h
  have h2 := h envC1 204 [sampleItemA] rfl (by decide) (by decide)
  have h3 : get_org_repos envC1 =
      .ok [mkFallbackSummary envC1.probeResp sampleRepoB] := rfl
  have h4 := h3.symm.trans h2
  have h5 : [mkFallbackSummary envC1.probeResp sampleRepoB] =
      searchSummaries [sampleItemA] := by injection h4
  exact absurd h5 (by decide)

/-- C1 (amended): discovery returns the search-derived summaries exactly
when the search request completes with status 200 (including the empty list
for zero matches); a non-200 status — even another 2xx — or a transport
exception runs the enumerate-and-probe fallback instead. -/
theorem c1_amended (env : OrgEnv) :
    (∀ items, env.searchResp = some (200, items) →
      get_org_repos env = .ok (searchSummaries items)) ∧
    (env.searchResp = some (200, []) → get_org_repos env = .ok []) ∧
    ((∀ items, env.searchResp ≠ some (200, items)) →
      get_org_repos env = fallbackRepos env) := by
  refine ⟨fun items h => get_org_repos_search env items h, fun h => ?_,
    fun h => get_org_repos_fb env h⟩
  exact get_org_repos_search env [] h

/-- Witness for C1 (amended) at concrete environments: a 200 response with
zero items returns the empty list; a transport exception runs the fallback. -/
theorem c1_amended_witness :
    get_org_repos envC2 = .ok [] ∧ get_org_repos envC3 = fallbackRepos envC3 := by
  constructor
  · exact (c1_amended envC2).2.1 rfl
  · exact (c1_amended envC3).2.2 (fun items hh => by simp [envC3] at hh)

/-- C2 counterexample: with a succeeding search that matches zero
repositories, discovery returns the empty list although the organization
owns repository `beta` — the search strategy does not produce one summary
per repository of the organization. -/
theorem c2_counterexample : ¬ c2Claim := by
  intro h
  have h2 := h envC2 [sampleRepoB] [] rfl rfl sampleRepoB (by simp)
  simp at h2

/-- C2 (amended): only the fallback strategy produces one summary per
repository belonging to the organization (one per enumerated repository, in
order); the search strategy produces exactly the summaries derived from the
search items, which need not cover the organization's repositories. -/
theorem c2_amended (env : OrgEnv) :
    (∀ items, env.searchResp = some (200, items) →
      get_org_repos env = .ok (searchSummaries items)) ∧
    ((∀ items, env.searchResp ≠ some (200, items)) →
      ∀ repos, fetchPages env.pageResps = .ok repos →
        get_org_repos env = .ok (repos.map (mkFallbackSummary env.probeResp)) ∧
        (repos.map (mkFallbackSummary env.probeResp)).map RepoSummary.name =
          repos.map RepoJson.name) := by
  refine ⟨fun items h => get_org_repos_search env items h, fun h repos hrep => ⟨?_, ?_⟩⟩
  · rw [get_org_repos_fb env h]
    unfold fallbackRepos
    rw [hrep]
  · rw [List.map_map]
    exact List.map_congr_left (fun r _ => rfl)

/-- Witness for C2 (amended) at a concrete environment with a failing search
and one enumerated repository. -/
theorem c2_amended_witness :
    get_org_repos envC3 =
      .ok ([sampleRepoB, sampleRepoC, sampleRepoD].map (mkFallbackSummary envC3.probeResp)) := by
  exact ((c2_amended envC3).2 (fun items hh => by simp [envC3] at hh)
    [sampleRepoB, sampleRepoC, sampleRepoD] rfl).1

/-- C3: when the search fails and enumeration succeeds with `repos`,
discovery returns exactly one summary per enumerated repository in original
order; `hasDocFolder` is true exactly when the probe answered status 200
(any other status or a transport exception resolves to false without
aborting); and pagination stops exactly on an empty page or a page shorter
than the page size 100, raising on a non-200 page status. -/
theorem c3_fallback (env : OrgEnv)
    (hfail : ∀ items, env.searchResp ≠ some (200, items))
    (repos : List RepoJson) (hrep : fetchPages env.pageResps = .ok repos) :
    get_org_repos env = .ok (repos.map (mkFallbackSummary env.probeResp)) ∧
    (repos.map (mkFallbackSummary env.probeResp)).map RepoSummary.name =
      repos.map RepoJson.name ∧
    (∀ r ∈ repos, ((mkFallbackSummary env.probeResp r).hasDocFolder = true ↔
      env.probeResp r.name = some 200)) ∧
    fetchPages [] = (Except.ok [] : Except PyExc (List RepoJson)) ∧
    (∀ status body page rest, fetchPages ((status, body, page) :: rest) =
      if status ≠ 200 then Except.error (mkExc (apiErrorMsg status body))
      else if page = [] then Except.ok []
      else if page.length < RESULTS_PER_PAGE then Except.ok page
      else (fetchPages rest).map (fun tail => page ++ tail)) := by
  refine ⟨?_, ?_, ?_, rfl, ?_⟩
  · rw [get_org_repos_fb env hfail]
    unfold fallbackRepos
    rw [hrep]
  · rw [List.map_map]
    exact List.map_congr_left (fun r _ => rfl)
  · intro r _
    show check_doc_folder env.probeResp r.name = true ↔ _
    unfold check_doc_folder
    cases hp : env.probeResp r.name with
    | some s => simp [hp, beq_iff_eq]
    | none => simp [hp]
  · intro status body page rest
    by_cases hs : status ≠ 200
    · simp [fetchPages, hs]
    · by_cases hp : page = []
      · simp [fetchPages, hs, hp]
      · by_cases hl : page.length < RESULTS_PER_PAGE
        · simp [fetchPages, hs, hp, hl]
        · cases ht : fetchPages rest with
          | ok tail => simp [fetchPages, hs, hp, hl, ht, Except.map]
          | error e => simp [fetchPages, hs, hp, hl, ht, Except.map]

/-- Witness for C3 at a concrete environment: three enumerated repositories
probed 200 / 404 / 200 yield three summaries in order with `hasDocFolder`
true, false, true. -/
theorem c3_witness :
    get_org_repos envC3 = .ok
      [⟨natToStr 21, pyStr ("beta"), [], pyStr ("ub"), true⟩,
       ⟨natToStr 22, pyStr ("gamma"), pyStr ("dc"), pyStr ("uc"), false⟩,
       ⟨natToStr 23, pyStr ("delta"), [], pyStr ("ud"), true⟩] := by
  have h := (c3_fallback envC3 (fun items hh => by simp [envC3] at hh)
    [sampleRepoB, sampleRepoC, sampleRepoD] rfl).1
  exact h.trans (by rfl)

/-- C6: on the success path of `get_file_content`, a present non-empty
`content` field is newline-stripped and decoded, a failing decode falls
back to the original undecoded string without raising, and an absent or
empty `content` field yields the empty string. -/
theorem c6_content_decode (decode : PyStr → Option PyStr) (body path : PyStr)
    (data : FileData) :
    (∀ c, data.content = some c → c ≠ [] →
      get_file_content decode 200 body path data =
        .ok ⟨data.name, data.path, (decode (stripNewlines c)).getD c,
          data.encoding.getD (pyStr ("base64"))⟩) ∧
    (data.content = none ∨ data.content = some [] →
      get_file_content decode 200 body path data =
        .ok ⟨data.name, data.path, [], data.encoding.getD (pyStr ("base64"))⟩) := by
  constructor
  · intro c hc hne
    unfold get_file_content
    rw [if_neg (by decide), if_neg (by decide)]
    simp only [hc]
    rw [if_neg hne]
    cases hd : decode (stripNewlines c) <;> simp [hd, Option.getD]
  · intro hc
    unfold get_file_content
    rw [if_neg (by decide), if_neg (by decide)]
    rcases hc with hc | hc <;> simp [hc]

/-- Witness for C6: the base64 example `"aGVsbG8=\n"` is newline-stripped
and decoded to `"hello"`. -/
theorem c6_witness :
    get_file_content decodeHello 200 [] (pyStr ("doc/README.md")) sampleFileData =
      .ok ⟨pyStr ("README.md"), pyStr ("doc/README.md"), pyStr ("hello"),
        pyStr ("base64")⟩ := by
  have h := (c6_content_decode decodeHello [] (pyStr ("doc/README.md"))
    sampleFileData).1 (pyStr ("aGVsbG8=") ++ [10]) rfl (by decide)
  exact h.trans (by rfl)

/-- C7: not-found handling is asymmetric — `get_repo_docs` maps 404 to the
empty list while `get_file_content` maps 404 to an error whose message
carries the missing path; both raise the generic upstream error, carrying
the status and the body, on any other non-200 status. -/
theorem c7_notfound_asymmetry (body path : PyStr) (contents : List ContentItem)
    (decode : PyStr → Option PyStr) (data : FileData) :
    (∀ status, status = 404 → get_repo_docs status body contents = .ok []) ∧
    (∀ status, status ≠ 404 → status ≠ 200 →
      get_repo_docs status body contents = .error (mkExc (apiErrorMsg status body)) ∧
      body <:+ apiErrorMsg status body) ∧
    (get_file_content decode 404 body path data =
      .error (mkExc (pyStr ("File not found: ") ++ path)) ∧
      path <:+ pyStr ("File not found: ") ++ path) ∧
    (∀ status, status ≠ 404 → status ≠ 200 →
      get_file_content decode status body path data =
        .error (mkExc (apiErrorMsg status body)) ∧
      natToStr status <:+: apiErrorMsg status body) := by
  refine ⟨?_, ?_, ⟨rfl, pyStr ("File not found: "), rfl⟩, ?_⟩
  · intro status h
    subst h
    rfl
  · intro status h1 h2
    refine ⟨?_, ?_⟩
    · unfold get_repo_docs
      rw [if_neg h1, if_pos h2]
    · exact ⟨pyStr ("GitHub API error ") ++ natToStr status ++ pyStr (": "),
        by simp [apiErrorMsg, List.append_assoc]⟩
  · intro status h1 h2
    refine ⟨?_, ?_⟩
    · unfold get_file_content
      rw [if_neg h1, if_pos h2]
    · exact ⟨pyStr ("GitHub API error "), pyStr (": ") ++ body,
        by simp [apiErrorMsg, List.append_assoc]⟩

/-- Witness for C7 at concrete statuses 404 and 500. -/
theorem c7_witness :
    get_repo_docs 404 (pyStr ("boom")) [] = .ok ([] : List DocDict) ∧
    get_repo_docs 500 (pyStr ("boom")) [] =
      .error (mkExc (apiErrorMsg 500 (pyStr ("boom")))) ∧
    get_file_content decodeFail 404 (pyStr ("boom")) (pyStr ("doc/x.md"))
      sampleFileData =
      .error (mkExc (pyStr ("File not found: ") ++ pyStr ("doc/x.md"))) := by
  have h := c7_notfound_asymmetry (pyStr ("boom")) (pyStr ("doc/x.md")) []
    decodeFail sampleFileData
  exact ⟨h.1 404 rfl, (h.2.1 500 (by decide) (by decide)).1, h.2.2.1.1⟩

/-- C8 (code bug): for the sample upstream listing — which carries a `size`
field — `get_repo_docs` returns a dictionary with no `size` key, and the
`documentation_resource` formatter, which subscripts `doc['size']`, raises
`KeyError` instead of formatting the listing. -/
theorem c8_size_missing :
    get_repo_docs 200 [] [sampleMdItem] = .ok [docEntry sampleMdItem] ∧
    dictGet (docEntry sampleMdItem) "size" = none ∧
    documentation_resource (pyStr ("o")) (pyStr ("r")) 200 [] [sampleMdItem] =
      .error ⟨"KeyError", pyStr ("size")⟩ := by
  exact ⟨rfl, by decide, by rfl⟩

/-- C9 counterexample: the 403 path of `search_documentation` raises the
same exception kind (`Exception`) as the generic upstream-error path, so
the rate-limit error is not distinguishable from the generic error by
kind. -/
theorem c9_counterexample :
    search_documentation 403 (pyStr ("b")) [] = .error rateLimitExc ∧
    search_documentation 500 (pyStr ("b")) [] =
      .error (mkExc (apiErrorMsg 500 (pyStr ("b")))) ∧
    rateLimitExc.kind = (mkExc (apiErrorMsg 500 (pyStr ("b")))).kind := by
  exact ⟨rfl, rfl, rfl⟩

/-- C9 (amended): on 403 `search_documentation` raises an `Exception` with
the fixed rate-limit message, distinguishable from the generic upstream
error only by its message text (never equal to any generic message), not by
exception kind; any other non-200 status raises the generic error carrying
the status and body. -/
theorem c9_amended (body : PyStr) (items : List SearchItem) :
    (∀ status, status = 403 →
      search_documentation status body items = .error rateLimitExc) ∧
    (∀ status, status ≠ 403 → status ≠ 200 →
      search_documentation status body items =
        .error (mkExc (apiErrorMsg status body))) ∧
    (∀ s b, rateLimitExc.msg ≠ (mkExc (apiErrorMsg s b)).msg) := by
  refine ⟨?_, ?_, ?_⟩
  · intro status h
    subst h
    rfl
  · intro status h1 h2
    unfold search_documentation
    rw [if_neg h1, if_pos h2]
  · intro s b h
    have h1 : (rateLimitExc.msg).head? = some 83 := by decide
    have h2 : ((mkExc (apiErrorMsg s b)).msg).head? = some 71 := by
      show (apiErrorMsg s b).head? = some 71
      unfold apiErrorMsg
      rw [show pyStr ("GitHub API error ") = 71 :: pyStr ("itHub API error ")
        from by decide]
      rfl
    rw [h, h2] at h1
    exact absurd h1 (by decide)

/-- Witness for C9 (amended) at concrete statuses 403 and 502. -/
theorem c9_amended_witness :
    search_documentation 403 (pyStr ("x")) [] = .error rateLimitExc ∧
    search_documentation 502 (pyStr ("x")) [] =
      .error (mkExc (apiErrorMsg 502 (pyStr ("x")))) := by
  have h := c9_amended (pyStr ("x")) []
  exact ⟨h.1 403 rfl, h.2.1 502 (by decide) (by decide)⟩

theorem ctRules_ne_unknown (l : PyStr)
    (h : supported_extensions.any (fun ext => endswith l ext) = true) :
    ctRules l ≠ .unknown := by
  have h7 : endswith l (pyStr (".md")) = true ∨ endswith l (pyStr (".mmd")) = true ∨
      endswith l (pyStr (".mermaid")) = true ∨ endswith l (pyStr (".svg")) = true ∨
      endswith l (pyStr (".yml")) = true ∨ endswith l (pyStr (".yaml")) = true ∨
      endswith l (pyStr (".json")) = true := by
    simpa [supported_extensions, List.any_eq_true] using h
  unfold ctRules
  split_ifs <;> simp_all

/-- C10: every documentation file returned by `get_repo_docs` has a type in
the known categories and never `unknown`, for any upstream listing: the
extension whitelist admits exactly the extensions the classifier maps to a
known category. -/
theorem c10_no_unknown (status : Nat) (body : PyStr) (contents : List ContentItem)
    (docs : List DocDict) (h : get_repo_docs status body contents = .ok docs) :
    ∀ d ∈ docs, ∃ t, dictGet d "type" = some (.vstr (ctName t)) ∧
      t ≠ ContentType.unknown := by
  unfold get_repo_docs at h
  by_cases h404 : status = 404
  · rw [if_pos h404] at h
    obtain ⟨rfl⟩ := Except.ok.inj h
    intro d hd
    cases hd
  · rw [if_neg h404] at h
    by_cases h200 : status ≠ 200
    · rw [if_pos h200] at h
      cases h
    · rw [if_neg h200] at h
      obtain ⟨rfl⟩ := Except.ok.inj h
      intro d hd
      unfold docsOf at hd
      rcases List.mem_map.1 hd with ⟨item, hitem, rfl⟩
      have hf := (List.mem_filter.1 hitem).2
      have hany : supported_extensions.any
          (fun ext => endswith (pyLower item.name) ext) = true := by
        rw [Bool.and_eq_true] at hf
        exact hf.2
      refine ⟨determine_content_type item.name, rfl, ?_⟩
      exact ctRules_ne_unknown (pyLower item.name) hany

/-- Witness for C10 at a concrete listing with one Markdown file. -/
theorem c10_witness :
    ∃ t, dictGet (docEntry sampleMdItem) "type" = some (.vstr (ctName t)) ∧
      t ≠ ContentType.unknown :=
  c10_no_unknown 200 [] [sampleMdItem] [docEntry sampleMdItem] rfl
    (docEntry sampleMdItem) (by simp)

end GithubMCP
